import Mathlib

/-!
Verification development for the graphide repository.

This file gives a shallow embedding of the parts of the repository that the
claims are about:

* the Joern driver script (`@main def execute` in `src/unnamed/part_001`):
  workspace/project lifecycle (`workspace.deleteProject`, `importCode`), the
  result-extraction loop over the query list, the JSON objects written to the
  output file, and the epilogue printed on stdout;
* the IDE surface: the analysis panel (`GraphIDEViewPane` in
  `src/ide/src/vs/workbench/contrib/graphide/browser/graphide.contribution.ts`),
  the webview provider message handler
  (`graphideWebviewProvider.ts`), and the React status banner
  (`src/ide/webview-ui/src/App.tsx`);
* the backend orchestrator's Verify/Apply stages, which are not present under
  src/ (only `src/backend/workflow.md` describes them) and are therefore
  modelled from the spec where a claim needs them.
-/

namespace Graphide

/-! ### CPG engine workspace model

`src/unnamed/part_001` lines 49-66 and 433: the script uses the fixed project
name "vuln_scan_final"; before importing it deletes any existing project of
that name, then calls `importCode`; at the very end (line 433) it calls
`workspace.deleteProject(projectName)`.  Each `importCode` produces a fresh
CPG, modelled by a fresh `importId`. -/

def projectName : String := "vuln_scan_final"

structure Project where
  name : String
  importId : Nat
deriving DecidableEq

structure Workspace where
  projects : List Project
  nextImportId : Nat
deriving DecidableEq

/-- `workspace.project(name).isDefined` (line 61). -/
def hasProject (ws : Workspace) (n : String) : Bool :=
  ws.projects.any (fun p => p.name == n)

/-- `workspace.deleteProject(name)` (lines 62 and 433): removes every project
with that name. -/
def deleteProject (ws : Workspace) (n : String) : Workspace :=
  { ws with projects := ws.projects.filter (fun p => p.name != n) }

/-- `importCode(inputPath = path, projectName = projectName)` (line 66):
always creates a fresh project backed by a fresh import. -/
def importCode (ws : Workspace) (n : String) : Workspace × Project :=
  let p : Project := ⟨n, ws.nextImportId⟩
  ({ projects := ws.projects ++ [p], nextImportId := ws.nextImportId + 1 }, p)

/-- The session-opening prelude of `execute` (lines 60-66): conditional
cleanup of a pre-existing project with the fixed name, then a fresh import. -/
def openSession (ws : Workspace) : Workspace × Project :=
  let ws1 := if hasProject ws projectName then deleteProject ws projectName else ws
  importCode ws1 projectName

/-! ### Engine-call trace of one run of `execute`

For the session lifecycle claim we record the sequence of graph-engine
project operations one invocation of `execute` performs.  After the import,
the script runs the queries, extracts results and writes the output file
with no exception handler (no try/finally around lines 67-431); the final
`workspace.deleteProject(projectName)` on line 433 is reached only if none
of that intermediate work throws.  `preExisting` says whether a project of
the fixed name already existed (left over from an earlier run);
`bodyThrows` says whether the intermediate work throws. -/

inductive EngineCall
  | deleteProj (name : String)
  | importProj (name : String)
deriving DecidableEq

def executeTrace (preExisting : Bool) (bodyThrows : Bool) : List EngineCall :=
  (if preExisting then [EngineCall.deleteProj projectName] else [])
    ++ [EngineCall.importProj projectName]
    ++ (if bodyThrows then [] else [EngineCall.deleteProj projectName])

def isDelete : EngineCall → Bool
  | .deleteProj _ => true
  | .importProj _ => false

def isImport : EngineCall → Bool
  | .deleteProj _ => false
  | .importProj _ => true

def countDeletes (t : List EngineCall) : Nat := (t.filter isDelete).length

def countImports (t : List EngineCall) : Nat := (t.filter isImport).length

/-- The deletions a run performs after its own import, i.e. the closes of the
session this run opened. -/
def deletesAfterImport (t : List EngineCall) : Nat :=
  countDeletes ((t.dropWhile isDelete).tail)

/-! ### Result extraction (`execute`, lines 381-431)

The script folds over `queries : List[(String, Cpg => Any)]`.  The Joern
traversals themselves are black boxes; we embed one run as the list of
(query name, materialized result list) pairs the traversals produced, and
embed the extraction loop faithfully:

* `parentMethodCode` is the `Try {...}.getOrElse("N/A")` of lines 401-408:
  a `Method` node contributes its own code; any other node goes through
  `location.methodFullName` (which can throw, modelled by `none`) and then
  `cpg.method.fullNameExact(name).code.headOption.getOrElse("N/A")`;
* a node is recorded only if `parentMethodCode != "N/A"` and its parent
  function is not already in the insertion-ordered map (line 410);
* the recorded JSON object has exactly the keys `parentFunctionCode`,
  `filename`, `lineNumber` (lines 412-416). -/

structure Location where
  filename : String
  /-- the rendered `Try(l.lineNumber.toString).getOrElse("unknown")` string -/
  lineNumberStr : String
deriving DecidableEq

inductive StoredNode
  | methodNode (code : String) (loc : Location)
  | otherNode (methodFullName : Option String) (loc : Location)
deriving DecidableEq

def StoredNode.location : StoredNode → Location
  | .methodNode _ l => l
  | .otherNode _ l => l

structure CpgMethod where
  fullName : String
  code : String
deriving DecidableEq

structure Cpg where
  methods : List CpgMethod
deriving DecidableEq

def parentMethodCode (cpg : Cpg) : StoredNode → String
  | .methodNode c _ => c
  | .otherNode none _ => "N/A"
  | .otherNode (some mfn) _ =>
      ((((cpg.methods.filter (fun m => m.fullName == mfn)).map
          (fun m => m.code)).head?).getD "N/A")

/-- The `ujson.Obj` built on lines 412-416, as an ordered key/value list. -/
def entryObj (pmc : String) (l : Location) : List (String × String) :=
  [("parentFunctionCode", pmc), ("filename", l.filename),
   ("lineNumber", l.lineNumberStr)]

def threeKeys : List String := ["parentFunctionCode", "filename", "lineNumber"]

/-- The insertion-ordered `LinkedHashMap` keyed by parent function code. -/
abbrev UniqueFunctions := List (String × List (String × String))

def ufContains (uf : UniqueFunctions) (k : String) : Bool :=
  uf.any (fun p => p.1 == k)

/-- The body of the inner `resultList.foreach` (lines 400-418); `pmc` is the
`parentMethodCode` of the node. -/
def processNode (cpg : Cpg) (uf : UniqueFunctions) (node : StoredNode) :
    UniqueFunctions :=
  if parentMethodCode cpg node != "N/A"
      && !(ufContains uf (parentMethodCode cpg node)) then
    uf ++ [(parentMethodCode cpg node,
            entryObj (parentMethodCode cpg node) node.location)]
  else uf

/-- One iteration of the outer `queries.foreach`: the
`if (resultList.nonEmpty)` guard around the inner loop (line 399). -/
def processQuery (cpg : Cpg) (uf : UniqueFunctions)
    (resultList : List StoredNode) : UniqueFunctions :=
  match resultList with
  | [] => uf
  | _ => resultList.foldl (processNode cpg) uf

def runQueries (cpg : Cpg) (queries : List (String × List StoredNode)) :
    UniqueFunctions :=
  queries.foldl (fun uf q => processQuery cpg uf q.2) []

/-- `ujson.Arr(uniqueFunctions.values.toSeq)` (line 422): the array of JSON
objects written to the output file. -/
def extractAll (cpg : Cpg) (queries : List (String × List StoredNode)) :
    List (List (String × String)) :=
  (runQueries cpg queries).map (fun p => p.2)

def lookupField (obj : List (String × String)) (k : String) : Option String :=
  ((obj.filter (fun p => p.1 == k)).head?).map (fun p => p.2)

/-! ### Script epilogue (lines 428-431)

After writing the output file the script prints the saved-path line and the
total, and prints "[+] No vulnerabilities found." exactly when
`foundIssues == 0` (`foundIssues = uniqueFunctions.size`, line 427). -/

inductive ScriptLine
  | resultsSaved (outputFile : String)
  | totalUniqueFunctions (n : Nat)
  | noVulnerabilitiesFound
deriving DecidableEq

def scriptEpilogue (outputFile : String) (foundIssues : Nat) : List ScriptLine :=
  [ScriptLine.resultsSaved outputFile,
   ScriptLine.totalUniqueFunctions foundIssues]
    ++ (if foundIssues == 0 then [ScriptLine.noVulnerabilitiesFound] else [])

/-! ### React status banner (`src/ide/webview-ui/src/App.tsx`, lines 354-365)

The `ScanResponse` shape is the `interface ScanResponse` of App.tsx; the
banner class and content are computed exactly as in the JSX conditionals of
the status banner. -/

structure VulnerabilityData where
  id : String
  severity : String
  vulnType : String
  file : String
  line : Nat
  status : String
  cwe : Option String
  description : Option String
deriving DecidableEq

structure AgentOutput where
  agentName : String
  markdownOutput : String
deriving DecidableEq

structure PatchProposal where
  code : String
  description : String
deriving DecidableEq

structure ScanResponse where
  status : String
  message : Option String
  agentOutputs : Option (List AgentOutput)
  patchProposals : Option (List PatchProposal)
  vulnerabilities : Option (List VulnerabilityData)
deriving DecidableEq

/-- `results.vulnerabilities` with the JS null-check: a missing list counts
as empty. -/
def vulnList (r : ScanResponse) : List VulnerabilityData :=
  r.vulnerabilities.getD []

inductive BannerKind
  | vulnerable
  | error
  | clean
deriving DecidableEq

/-- The banner className chain (App.tsx line 355):
`success` with nonempty vulnerabilities ↦ vulnerable, `error` ↦ error,
anything else ↦ clean. -/
def bannerKind (r : ScanResponse) : BannerKind :=
  if r.status == "success" && decide (0 < (vulnList r).length) then
    BannerKind.vulnerable
  else if r.status == "error" then BannerKind.error
  else BannerKind.clean

/-- The banner text (App.tsx lines 356-364); `none` when no branch renders. -/
def bannerText (r : ScanResponse) : Option String :=
  if r.status == "success" && decide (0 < (vulnList r).length) then
    some ("Found " ++ toString (vulnList r).length ++ " vulnerability issue(s)")
  else if r.status == "success" then
    some (r.message.getD "No vulnerabilities detected")
  else if r.status == "error" then
    some (r.message.getD "Analysis error")
  else none

/-! ### Webview provider message handler
(`graphideWebviewProvider.ts`, lines 89-133, the `analyzeFiles` case)

The handler posts an `analysisProgress` message, issues exactly one POST to
the backend, and posts either `analysisResult` or `analysisError`.  We embed
the outbound request by an oracle `attempts : Nat → RequestOutcome` giving
the outcome each successive attempt would have; the handler returns the
posted messages together with the number of requests actually issued, so
that any retry behaviour would be visible in that count. -/

def backendUrl : String := "http://localhost:8000"

inductive ErrorKind
  | timeout
  | rateLimited
  | unavailable
  | invalidResponse
  | rejected
deriving DecidableEq

inductive RequestOutcome
  | ok (data : String)
  | err (kind : ErrorKind) (message : String)
deriving DecidableEq

inductive WebviewMessage
  | analysisProgress (step : Nat) (total : Nat) (message : String)
  | analysisResult (data : String)
  | analysisError (error : String)
deriving DecidableEq

def handleAnalyzeFiles (filePath : Option String)
    (attempts : Nat → RequestOutcome) : List WebviewMessage × Nat :=
  match filePath with
  | none => ([WebviewMessage.analysisError "No file selected"], 0)
  | some _ =>
      let progress := WebviewMessage.analysisProgress 1 5 "Sending to backend..."
      match attempts 0 with
      | .ok d => ([progress, WebviewMessage.analysisResult d], 1)
      | .err _ m =>
          ([progress, WebviewMessage.analysisError
              ("Backend Error: " ++ m
                ++ "\n\nEnsure the backend is running at " ++ backendUrl)], 1)

/-- An oracle whose first attempt fails with a transient timeout and whose
second attempt would succeed. -/
def transientThenOk : Nat → RequestOutcome :=
  fun n =>
    if n == 0 then RequestOutcome.err ErrorKind.timeout "request timed out"
    else RequestOutcome.ok "scan result"

/-! ### Panel message log (`graphide.contribution.ts`, lines 107-216)

`GraphIDEViewPane` keeps `messages`, `lastErrorContent` and `errorCount`;
`renderMessage` appends one DOM element per appended message.  `addMessage`
consolidates a repeated error: when the new message is an error whose content
equals `lastErrorContent`, the list is nonempty and the last message is an
error, it only bumps `errorCount` and writes the `(n×)` badge onto the last
error element (creating the badge if missing), appending nothing.  The
`timestamp: new Date()` field is wall-clock and is omitted from the model. -/

inductive MsgRole
  | user
  | system
deriving DecidableEq

inductive MsgType
  | normal
  | error
  | warning
deriving DecidableEq

structure ChatMessage where
  role : MsgRole
  content : String
  msgType : MsgType
deriving DecidableEq

structure DomElement where
  role : MsgRole
  msgType : MsgType
  badge : Option Nat
deriving DecidableEq

structure PaneState where
  messages : List ChatMessage
  dom : List DomElement
  lastErrorContent : String
  errorCount : Nat
deriving DecidableEq

/-- Write the count badge onto the last DOM element with the error class
(`querySelectorAll('.graphide-message-error')`, last element): set its badge,
creating it if absent.  If no error element exists, nothing changes. -/
def setLastErrorBadge : List DomElement → Nat → List DomElement
  | [], _ => []
  | e :: es, n =>
      if es.any (fun x => x.msgType == MsgType.error) then
        e :: setLastErrorBadge es n
      else if e.msgType == MsgType.error then
        { e with badge := some n } :: es
      else e :: es

/-- The non-consolidating tail of `addMessage` (lines 204-215): reset the
error tracking, push the message, render one DOM element. -/
def appendMessage (st : PaneState) (role : MsgRole) (content : String)
    (msgType : MsgType) : PaneState :=
  { messages := st.messages ++ [⟨role, content, msgType⟩]
    dom := st.dom ++ [⟨role, msgType, none⟩]
    lastErrorContent := if msgType == MsgType.error then content else ""
    errorCount := if msgType == MsgType.error then 1 else 0 }

/-- `GraphIDEViewPane.addMessage` (lines 176-216). -/
def addMessage (st : PaneState) (role : MsgRole) (content : String)
    (msgType : MsgType) : PaneState :=
  if msgType == MsgType.error && content == st.lastErrorContent
      && decide (0 < st.messages.length) then
    let ec := st.errorCount + 1
    match st.messages.getLast? with
    | some m =>
        if m.msgType == MsgType.error then
          { st with errorCount := ec, dom := setLastErrorBadge st.dom ec }
        else appendMessage st role content msgType
    | none => appendMessage st role content msgType
  else appendMessage st role content msgType

/-! ### Analyze action (`graphide.contribution.ts`, lines 269-303)

`handleAnalyze` opens a file dialog that permits selecting many files
(`canSelectMany: true`) but builds the backend payload from `uris[0]` only. -/

structure OpenDialogOptions where
  canSelectFiles : Bool
  canSelectFolders : Bool
  canSelectMany : Bool
  openLabel : String
  title : String
deriving DecidableEq

def analyzeDialogOptions : OpenDialogOptions :=
  { canSelectFiles := true
    canSelectFolders := false
    canSelectMany := true
    openLabel := "Analyze"
    title := "Select Code File to Analyze" }

structure Uri where
  fsPath : String
deriving DecidableEq

structure AgentPayload where
  intent : String
  filePath : String
  language : String
  userQuery : String
deriving DecidableEq

/-- The payload construction of `handleAnalyze`: `none` when the dialog was
cancelled or returned no files (lines 278-280), else the payload of
lines 291-296 built from the first selected file. -/
def handleAnalyzeRequest : List Uri → Option AgentPayload
  | [] => none
  | u :: _ =>
      some { intent := "scan", filePath := u.fsPath, language := "c",
             userQuery := "Analyze this file" }

/-! ### Verify and Apply stages, modelled from the spec

The backend orchestrator (the FastAPI service `main.py` started by the
launcher script) is not under src/; only `src/backend/workflow.md`
steps 9-10 and the spec describe its Verify → Apply sequencing. -/

inductive Verification
  | unverified
  | valid
  | invalid (errors : List String)
deriving DecidableEq

structure PatchCandidate where
  findingId : String
  originalCode : String
  proposedCode : String
  verification : Verification
deriving DecidableEq

/-- `applyPatch(filePath, originalCode, newCode)`, the call shape of the
patch-apply collaborator. -/
structure ApplyCall where
  filePath : String
  originalCode : String
  newCode : String
deriving DecidableEq

/-- Modelled from the spec: the Verify stage of the backend orchestrator is
not under src/.  Per the spec, each PatchCandidate proposed during Detection
is sent to the verifier, whose outcome is recorded on the candidate. -/
def verifyStage (verifier : PatchCandidate → Verification)
    (cs : List PatchCandidate) : List PatchCandidate :=
  cs.map (fun c => { c with verification := verifier c })

/-- Modelled from the spec: the Apply stage of the backend orchestrator is
not under src/.  Per the spec, only candidates whose verification is `valid`
are passed to the apply collaborator; the rest are skipped. -/
def applyStage (filePath : String) (cs : List PatchCandidate) :
    List ApplyCall :=
  (cs.filter (fun c => c.verification == Verification.valid)).map
    (fun c => { filePath := filePath, originalCode := c.originalCode,
                newCode := c.proposedCode })

/-- Modelled from the spec: the Verify → Apply tail of one run — verify every
candidate, then apply.  Returns the calls made to the apply collaborator. -/
def pipelineApplyCalls (filePath : String)
    (verifier : PatchCandidate → Verification)
    (candidates : List PatchCandidate) : List ApplyCall :=
  applyStage filePath (verifyStage verifier candidates)

/-! ### Concrete inputs used by counterexamples and witnesses -/

/-- A call node flagged by the call-to-strcpy query, sitting inside `main`. -/
def strcpyNode : StoredNode :=
  StoredNode.otherNode (some "main") ⟨"vuln.c", "Some(5)"⟩

def strcpyCpg : Cpg := ⟨[⟨"main", "int main(int argc, char **argv)"⟩]⟩

/-- One run in which only the call-to-strcpy rule flagged anything. -/
def strcpyRun : List (String × List StoredNode) :=
  [("call-to-strcpy", [strcpyNode])]

def naLoc : Location := ⟨"vuln.c", "None"⟩

def naCpg : Cpg := ⟨[⟨"main", "int main(void)"⟩]⟩

/-- A run whose first flagged node has an unresolvable parent function. -/
def naRun : List (String × List StoredNode) :=
  [("call-to-gets",
    [StoredNode.otherNode none naLoc, StoredNode.methodNode "int main(void)" naLoc])]

def errMsgContent : String := "Analysis Failed: connect ECONNREFUSED"

/-- A pane state whose last message is an error, consistent with the error
tracking fields. -/
def paneSt : PaneState :=
  { messages := [⟨MsgRole.system, errMsgContent, MsgType.error⟩]
    dom := [⟨MsgRole.system, MsgType.error, none⟩]
    lastErrorContent := errMsgContent
    errorCount := 1 }

/-- The invariant the extraction loop maintains on the insertion-ordered
map: every recorded entry is keyed by a non-sentinel parent function code
and its JSON object is exactly the three-field object of lines 412-416. -/
def goodUF (uf : UniqueFunctions) : Prop :=
  ∀ p ∈ uf, p.1 ≠ "N/A" ∧ ∃ loc, p.2 = entryObj p.1 loc

/-! ## Extraction-loop lemmas -/

lemma processQuery_eq_foldl (cpg : Cpg) (uf : UniqueFunctions)
    (l : List StoredNode) :
    processQuery cpg uf l = l.foldl (processNode cpg) uf := by
  cases l <;> rfl

lemma ufContains_ne_nil (uf : UniqueFunctions) (k : String)
    (h : ufContains uf k = true) : uf ≠ [] := by
  cases uf with
  | nil => simp [ufContains] at h
  | cons a l => simp

lemma processNode_ne_nil (cpg : Cpg) (uf : UniqueFunctions) (nd : StoredNode)
    (h : uf ≠ []) : processNode cpg uf nd ≠ [] := by
  unfold processNode
  split
  · simp
  · exact h

lemma processNode_hit_ne_nil (cpg : Cpg) (uf : UniqueFunctions)
    (nd : StoredNode) (h : parentMethodCode cpg nd ≠ "N/A") :
    processNode cpg uf nd ≠ [] := by
  unfold processNode
  by_cases hc : ufContains uf (parentMethodCode cpg nd)
  · have huf := ufContains_ne_nil uf _ hc
    simp [hc, huf]
  · simp [hc, bne_iff_ne, h]

lemma foldl_processNode_ne_nil (cpg : Cpg) (l : List StoredNode) :
    ∀ uf : UniqueFunctions, uf ≠ [] →
      l.foldl (processNode cpg) uf ≠ [] := by
  induction l with
  | nil => intro uf h; simpa using h
  | cons a t ih => intro uf h; exact ih _ (processNode_ne_nil _ _ _ h)

lemma foldl_processNode_hit_ne_nil (cpg : Cpg) (nd : StoredNode)
    (h : parentMethodCode cpg nd ≠ "N/A") :
    ∀ (l : List StoredNode) (uf : UniqueFunctions), nd ∈ l →
      l.foldl (processNode cpg) uf ≠ [] := by
  intro l
  induction l with
  | nil => intro uf hm; cases hm
  | cons a t ih =>
      intro uf hm
      rcases List.mem_cons.mp hm with rfl | hmt
      · exact foldl_processNode_ne_nil cpg t _ (processNode_hit_ne_nil _ _ _ h)
      · exact ih _ hmt

lemma processQuery_ne_nil (cpg : Cpg) (uf : UniqueFunctions)
    (l : List StoredNode) (h : uf ≠ []) : processQuery cpg uf l ≠ [] := by
  rw [processQuery_eq_foldl]
  exact foldl_processNode_ne_nil cpg l uf h

lemma foldl_processQuery_ne_nil (cpg : Cpg)
    (qs : List (String × List StoredNode)) :
    ∀ uf : UniqueFunctions, uf ≠ [] →
      qs.foldl (fun uf q => processQuery cpg uf q.2) uf ≠ [] := by
  induction qs with
  | nil => intro uf h; simpa using h
  | cons a t ih => intro uf h; exact ih _ (processQuery_ne_nil _ _ _ h)

lemma runQueries_ne_nil (cpg : Cpg)
    (queries : List (String × List StoredNode)) (name : String)
    (nodes : List StoredNode) (nd : StoredNode)
    (hq : (name, nodes) ∈ queries) (hn : nd ∈ nodes)
    (h : parentMethodCode cpg nd ≠ "N/A") :
    runQueries cpg queries ≠ [] := by
  unfold runQueries
  have main : ∀ (qs : List (String × List StoredNode))
      (uf : UniqueFunctions), (name, nodes) ∈ qs →
      qs.foldl (fun uf q => processQuery cpg uf q.2) uf ≠ [] := by
    intro qs
    induction qs with
    | nil => intro uf hm; cases hm
    | cons a t ih =>
        intro uf hm
        rcases List.mem_cons.mp hm with rfl | hmt
        · have h1 : processQuery cpg uf nodes ≠ [] := by
            rw [processQuery_eq_foldl]
            exact foldl_processNode_hit_ne_nil cpg nd h nodes uf hn
          exact foldl_processQuery_ne_nil cpg t _ h1
        · exact ih _ hmt
  exact main queries [] hq

lemma goodUF_processNode (cpg : Cpg) (uf : UniqueFunctions) (nd : StoredNode)
    (h : goodUF uf) : goodUF (processNode cpg uf nd) := by
  unfold processNode
  split
  case isTrue hcond =>
    intro p hp
    rcases List.mem_append.mp hp with hp | hp
    · exact h p hp
    · rcases List.mem_singleton.mp hp with rfl
      refine ⟨?_, nd.location, rfl⟩
      have h1 : (parentMethodCode cpg nd != "N/A") = true := by
        have h2 := hcond
        simp only [Bool.and_eq_true] at h2
        exact h2.1
      simpa [bne_iff_ne] using h1
  case isFalse hcond => exact h

lemma goodUF_foldl_processNode (cpg : Cpg) (l : List StoredNode) :
    ∀ uf : UniqueFunctions, goodUF uf →
      goodUF (l.foldl (processNode cpg) uf) := by
  induction l with
  | nil => intro uf h; simpa using h
  | cons a t ih => intro uf h; exact ih _ (goodUF_processNode _ _ _ h)

lemma goodUF_runQueries (cpg : Cpg)
    (queries : List (String × List StoredNode)) :
    goodUF (runQueries cpg queries) := by
  unfold runQueries
  have main : ∀ (qs : List (String × List StoredNode))
      (uf : UniqueFunctions), goodUF uf →
      goodUF (qs.foldl (fun uf q => processQuery cpg uf q.2) uf) := by
    intro qs
    induction qs with
    | nil => intro uf h; simpa using h
    | cons a t ih =>
        intro uf h
        refine ih _ ?_
        show goodUF (processQuery cpg uf a.2)
        rw [processQuery_eq_foldl]
        exact goodUF_foldl_processNode _ _ _ h
  exact main queries [] (by intro p hp; cases hp)

lemma entryObj_lookup_pfc (pmc : String) (l : Location) :
    lookupField (entryObj pmc l) "parentFunctionCode" = some pmc := rfl

lemma entryObj_lookup_kind (pmc : String) (l : Location) :
    lookupField (entryObj pmc l) "kind" = none := rfl

lemma entryObj_keys (pmc : String) (l : Location) :
    (entryObj pmc l).map Prod.fst = threeKeys := rfl

lemma processNode_na (cpg : Cpg) (uf : UniqueFunctions) (nd : StoredNode)
    (h : parentMethodCode cpg nd = "N/A") : processNode cpg uf nd = uf := by
  unfold processNode
  simp [h]

lemma foldl_processNode_filter (cpg : Cpg) (l : List StoredNode) :
    ∀ uf : UniqueFunctions,
      l.foldl (processNode cpg) uf =
        (l.filter (fun nd => parentMethodCode cpg nd != "N/A")).foldl
          (processNode cpg) uf := by
  induction l with
  | nil => intro uf; rfl
  | cons a t ih =>
      intro uf
      by_cases hp : parentMethodCode cpg a ≠ "N/A"
      · have hb : (parentMethodCode cpg a != "N/A") = true := by
          simpa [bne_iff_ne] using hp
        simp only [List.foldl_cons, List.filter_cons, hb, if_true]
        exact ih _
      · have ha : parentMethodCode cpg a = "N/A" := by
          by_contra hcon
          exact hp hcon
        have hb : (parentMethodCode cpg a != "N/A") = false := by
          simp [bne_iff_ne, ha]
        simp only [List.foldl_cons, List.filter_cons, hb, if_false,
          processNode_na cpg uf a ha]
        exact ih _

lemma runQueries_filter (cpg : Cpg)
    (queries : List (String × List StoredNode)) :
    runQueries cpg queries =
      runQueries cpg (queries.map (fun q =>
        (q.1, q.2.filter (fun nd => parentMethodCode cpg nd != "N/A")))) := by
  unfold runQueries
  rw [List.foldl_map]
  have main : ∀ (qs : List (String × List StoredNode))
      (uf : UniqueFunctions),
      qs.foldl (fun uf q => processQuery cpg uf q.2) uf =
        qs.foldl (fun uf q => processQuery cpg uf
          (q.2.filter (fun nd => parentMethodCode cpg nd != "N/A"))) uf := by
    intro qs
    induction qs with
    | nil => intro uf; rfl
    | cons a t ih =>
        intro uf
        simp only [List.foldl_cons]
        rw [processQuery_eq_foldl, processQuery_eq_foldl,
          ← foldl_processNode_filter]
        exact ih _
  exact main queries []

/-! ## Claim theorems -/

/-- Claim C1: for every run and every PatchCandidate produced during it, a
patch reaches the apply collaborator only if its verification status is
`valid` — for any sequence of verifier outcomes, every call made to the
apply collaborator comes from a candidate whose recorded verification after
the Verify stage is `valid`; `unverified` and `invalid` candidates are never
applied. -/
theorem applyReceivesOnlyValid (fp : String)
    (verifier : PatchCandidate → Verification) (cs : List PatchCandidate)
    (ac : ApplyCall) (h : ac ∈ pipelineApplyCalls fp verifier cs) :
    ∃ c ∈ verifyStage verifier cs,
      c.verification = Verification.valid ∧
      ac = { filePath := fp, originalCode := c.originalCode,
             newCode := c.proposedCode } := by
  unfold pipelineApplyCalls applyStage at h
  rcases List.mem_map.mp h with ⟨c, hc, rfl⟩
  rcases List.mem_filter.mp hc with ⟨hmem, hval⟩
  exact ⟨c, hmem, by simpa using hval, rfl⟩

theorem applyReceivesOnlyValidWitness :
    ∃ c ∈ verifyStage (fun _ => Verification.valid)
        [⟨"F1", "orig", "fixed", Verification.unverified⟩],
      c.verification = Verification.valid ∧
      ({ filePath := "a.c", originalCode := "orig", newCode := "fixed" } :
          ApplyCall) =
        { filePath := "a.c", originalCode := c.originalCode,
          newCode := c.proposedCode } :=
  applyReceivesOnlyValid "a.c" (fun _ => Verification.valid)
    [⟨"F1", "orig", "fixed", Verification.unverified⟩]
    ⟨"a.c", "orig", "fixed"⟩ (by decide)

/-- Claim C2 (counterexample): the script has no try/finally around the
analysis body, so a run whose intermediate work throws performs its import
but never reaches the final `workspace.deleteProject` — this run makes
one import and zero deletions, so deletions do not equal imports and the session
is not closed by the end of the run. -/
theorem throwingRunSkipsDelete :
    countImports (executeTrace false true) = 1 ∧
    countDeletes (executeTrace false true) = 0 := by decide

/-- Claim C2 (amended): a run performs exactly one import; it deletes the
project it imported exactly once if the analysis body completes, and zero
times when the body throws (the leaked project is instead deleted by the
next run's pre-import cleanup, which is the leading delete of a run that
starts with a pre-existing project). -/
theorem deleteOnceUnlessBodyThrows :
    ∀ pre throws : Bool,
      countImports (executeTrace pre throws) = 1 ∧
      deletesAfterImport (executeTrace pre throws) =
        (if throws then 0 else 1) ∧
      (executeTrace true throws).head? =
        some (EngineCall.deleteProj projectName) := by
  intro pre throws
  cases pre <;> cases throws <;> refine ⟨by decide, by decide, by decide⟩

/-- Claim C5 (counterexample): starting from an empty workspace, opening a
session and then opening a second one destroys the first session's project —
the fixed project name makes the second open's cleanup delete it — so the
two sessions are not independent as claimed. -/
theorem secondOpenDeletesFirstProject :
    (openSession ⟨[], 0⟩).2 ∉ (openSession (openSession ⟨[], 0⟩).1).1.projects ∧
    (openSession (openSession ⟨[], 0⟩).1).2 ∈
      (openSession (openSession ⟨[], 0⟩).1).1.projects ∧
    (openSession ⟨[], 0⟩).2 ≠ (openSession (openSession ⟨[], 0⟩).1).2 := by
  decide

/-- Claim C5 (amended): opening twice is indeed not idempotent — each open
performs a fresh import yielding a distinct project (distinct import ids),
and the second open does not reuse the first session's state — but the
sessions are not independent: because the project name is fixed, the second
open deletes the first session's project before importing. -/
theorem openFreshImportButFixedName (ws : Workspace) :
    (openSession ws).2.importId ≠ (openSession (openSession ws).1).2.importId ∧
    (openSession ws).2 ∉ (openSession (openSession ws).1).1.projects ∧
    (openSession (openSession ws).1).2 ∈
      (openSession (openSession ws).1).1.projects := by
  have hsnd : ∀ w : Workspace, (openSession w).2 =
      ⟨projectName, w.nextImportId⟩ := by
    intro w
    unfold openSession importCode
    split <;> rfl
  have hnext : ∀ w : Workspace, (openSession w).1.nextImportId =
      w.nextImportId + 1 := by
    intro w
    unfold openSession importCode
    split <;> rfl
  have hproj : ∀ w : Workspace, (openSession w).1.projects =
      (if hasProject w projectName then deleteProject w projectName
       else w).projects ++ [⟨projectName, w.nextImportId⟩] := by
    intro w
    unfold openSession importCode
    split <;> rfl
  have hhas : hasProject (openSession ws).1 projectName = true := by
    rw [hasProject, hproj]
    simp
  refine ⟨?_, ?_, ?_⟩
  · rw [hsnd, hsnd, hnext]
    simp
  · rw [hsnd, hproj, hhas]
    simp only [if_true, deleteProject, hproj ws, List.mem_append,
      List.mem_filter, List.mem_singleton]
    rintro (⟨_, hne⟩ | heq)
    · simp at hne
    · have := congrArg Project.importId heq
      simp [hnext] at this
  · rw [hproj]
    simp [hsnd]

/-- Claim C8 (counterexample): the `analyzeFiles` handler issues exactly one
backend request and reports a transient failure immediately — with an oracle
whose first attempt times out and whose second attempt would succeed, the
handler still makes only one request and posts `analysisError`, so no retry
with backoff (up to 3 attempts) exists. -/
theorem transientErrorNotRetried :
    (handleAnalyzeFiles (some "/tmp/vuln.c") transientThenOk).2 = 1 ∧
    transientThenOk 1 = RequestOutcome.ok "scan result" ∧
    (handleAnalyzeFiles (some "/tmp/vuln.c") transientThenOk).1 =
      [WebviewMessage.analysisProgress 1 5 "Sending to backend...",
       WebviewMessage.analysisError
         ("Backend Error: " ++ "request timed out"
           ++ "\n\nEnsure the backend is running at " ++ backendUrl)] :=
  ⟨rfl, rfl, rfl⟩

/-- Claim C8 (amended): the IDE-side orchestration layer performs no retries
at all — each analysis request issues exactly one backend call regardless of
the outcome, and every failure, transient kind or not, is immediately
reported as `analysisError` with no backoff; in particular `invalidResponse`
and `rejected` are also never retried. -/
theorem singleAttemptNoRetry (fp : String)
    (attempts : Nat → RequestOutcome) :
    (handleAnalyzeFiles (some fp) attempts).2 = 1 ∧
    ∀ (k : ErrorKind) (m : String),
      (handleAnalyzeFiles (some fp) (fun _ => RequestOutcome.err k m)).1 =
        [WebviewMessage.analysisProgress 1 5 "Sending to backend...",
         WebviewMessage.analysisError
           ("Backend Error: " ++ m
             ++ "\n\nEnsure the backend is running at " ++ backendUrl)] := by
  constructor
  · unfold handleAnalyzeFiles
    cases attempts 0 <;> rfl
  · intro k m
    rfl

/-- Claim C10: the analyze action's file dialog permits selecting many files
(`canSelectMany: true`), yet only the first selected file's path is sent to
the backend: the payload is built from the head of the selection and is
independent of every other selected file. -/
theorem onlyFirstFileAnalyzed :
    analyzeDialogOptions.canSelectMany = true ∧
    handleAnalyzeRequest [] = none ∧
    ∀ (u : Uri) (rest : List Uri),
      handleAnalyzeRequest (u :: rest) =
        some { intent := "scan", filePath := u.fsPath, language := "c",
               userQuery := "Analyze this file" } ∧
      ∀ rest2 : List Uri,
        handleAnalyzeRequest (u :: rest) = handleAnalyzeRequest (u :: rest2) := by
  refine ⟨rfl, rfl, ?_⟩
  intro u rest
  exact ⟨rfl, fun _ => rfl⟩

/-- Claim C3 (counterexample): a run in which the call-to-strcpy rule flags
a call produces a one-entry findings array, yet no entry has a `kind` field
matching the rule's name — the written objects carry no `kind` field at
all. -/
theorem strcpyRunHasNoKindField :
    (extractAll strcpyCpg strcpyRun).length = 1 ∧
    ¬ ∃ obj ∈ extractAll strcpyCpg strcpyRun,
        lookupField obj "kind" = some "call-to-strcpy" := by decide

/-- Claim C3 (amended): when a rule flags a call whose parent function is
resolvable, the written findings array is nonempty — it contains an entry
for the flagged call's parent function — but every entry is a
`{parentFunctionCode, filename, lineNumber}` object with no `kind` field, so
no entry identifies the rule that produced it. -/
theorem flaggedRuleYieldsEntryWithoutKind (cpg : Cpg)
    (queries : List (String × List StoredNode)) (name : String)
    (nodes : List StoredNode) (nd : StoredNode)
    (hq : (name, nodes) ∈ queries) (hn : nd ∈ nodes)
    (h : parentMethodCode cpg nd ≠ "N/A") :
    extractAll cpg queries ≠ [] ∧
    ∀ obj ∈ extractAll cpg queries, lookupField obj "kind" = none := by
  constructor
  · intro hnil
    have hrq : runQueries cpg queries = [] := by
      unfold extractAll at hnil
      exact List.map_eq_nil_iff.mp hnil
    exact runQueries_ne_nil cpg queries name nodes nd hq hn h hrq
  · intro obj hobj
    rcases List.mem_map.mp hobj with ⟨p, hp, rfl⟩
    rcases (goodUF_runQueries cpg queries p hp).2 with ⟨loc, hloc⟩
    rw [hloc]
    exact entryObj_lookup_kind _ _

theorem flaggedRuleYieldsEntryWithoutKindWitness :
    extractAll strcpyCpg strcpyRun ≠ [] ∧
    ∀ obj ∈ extractAll strcpyCpg strcpyRun, lookupField obj "kind" = none :=
  flaggedRuleYieldsEntryWithoutKind strcpyCpg strcpyRun "call-to-strcpy"
    [strcpyNode] strcpyNode (by decide) (by decide) (by decide)

/-- Claim C4: every entry of the result written for a run is exactly a
three-field object — the slice's code (`parentFunctionCode`), file
(`filename`) and line (`lineNumber`) — and nothing else: the full graph is
never part of the output, only these triples. -/
theorem entriesAreTriples (cpg : Cpg)
    (queries : List (String × List StoredNode))
    (obj : List (String × String)) (h : obj ∈ extractAll cpg queries) :
    obj.map Prod.fst = threeKeys := by
  rcases List.mem_map.mp h with ⟨p, hp, rfl⟩
  rcases (goodUF_runQueries cpg queries p hp).2 with ⟨loc, hloc⟩
  rw [hloc]
  exact entryObj_keys _ _

theorem entriesAreTriplesWitness :
    (entryObj "int main(int argc, char **argv)"
      ⟨"vuln.c", "Some(5)"⟩).map Prod.fst = threeKeys :=
  entriesAreTriples strcpyCpg strcpyRun _ (by decide)

/-- Claim C6: a query-result node whose parent function cannot be resolved
is coerced to the sentinel "N/A" and silently excluded from the output: the
extraction result is unchanged if all such nodes are removed beforehand;
both the throwing location accessor and the failed method lookup yield the
sentinel; and no written entry ever carries the sentinel (so the case never
surfaces as an error value or a null-location finding). -/
theorem unresolvedParentSilentlyDropped (cpg : Cpg)
    (queries : List (String × List StoredNode)) :
    (extractAll cpg queries =
      extractAll cpg (queries.map (fun q =>
        (q.1, q.2.filter (fun nd => parentMethodCode cpg nd != "N/A"))))) ∧
    (∀ loc, parentMethodCode cpg (StoredNode.otherNode none loc) = "N/A") ∧
    (∀ mfn loc, cpg.methods.filter (fun m => m.fullName == mfn) = [] →
        parentMethodCode cpg (StoredNode.otherNode (some mfn) loc) = "N/A") ∧
    (∀ obj ∈ extractAll cpg queries,
        lookupField obj "parentFunctionCode" ≠ some "N/A") := by
  refine ⟨?_, ?_, ?_, ?_⟩
  · unfold extractAll
    rw [runQueries_filter cpg queries]
  · intro loc
    rfl
  · intro mfn loc hfil
    have hred : parentMethodCode cpg (StoredNode.otherNode (some mfn) loc) =
        (((cpg.methods.filter (fun m => m.fullName == mfn)).map
            (fun m => m.code)).head?).getD "N/A" := rfl
    rw [hred, hfil]
    rfl
  · intro obj hobj
    rcases List.mem_map.mp hobj with ⟨p, hp, rfl⟩
    have hgood := goodUF_runQueries cpg queries p hp
    rcases hgood.2 with ⟨loc, hloc⟩
    rw [hloc, entryObj_lookup_pfc]
    simpa using hgood.1

theorem unresolvedParentSilentlyDroppedWitness :
    (extractAll naCpg naRun =
      extractAll naCpg (naRun.map (fun q =>
        (q.1, q.2.filter (fun nd => parentMethodCode naCpg nd != "N/A"))))) ∧
    parentMethodCode naCpg (StoredNode.otherNode none naLoc) = "N/A" ∧
    parentMethodCode naCpg
      (StoredNode.otherNode (some "missing_fn") naLoc) = "N/A" ∧
    lookupField (entryObj "int main(void)" naLoc) "parentFunctionCode" ≠
      some "N/A" := by
  have h := unresolvedParentSilentlyDropped naCpg naRun
  exact ⟨h.1, h.2.1 naLoc, h.2.2.1 "missing_fn" naLoc (by decide),
    h.2.2.2 _ (by decide)⟩

/-- Claim C7: a caller can always distinguish "nothing found" from
"analysis broke": a success response with zero vulnerabilities renders the
clean banner (with the no-vulnerabilities text) while an error response
renders the error banner, and these banner states are distinct; likewise,
the driver script prints its no-vulnerabilities line exactly when a
completed run found zero unique functions. -/
theorem emptyVsErrorDistinct :
    (∀ r : ScanResponse, r.status = "success" → vulnList r = [] →
        bannerKind r = BannerKind.clean ∧
        bannerText r = some (r.message.getD "No vulnerabilities detected")) ∧
    (∀ r : ScanResponse, r.status = "error" →
        bannerKind r = BannerKind.error ∧
        bannerText r = some (r.message.getD "Analysis error")) ∧
    BannerKind.clean ≠ BannerKind.error ∧
    (∀ (f : String) (n : Nat),
        ScriptLine.noVulnerabilitiesFound ∈ scriptEpilogue f n ↔ n = 0) := by
  refine ⟨?_, ?_, by decide, ?_⟩
  · intro r h1 h2
    constructor
    · simp [bannerKind, h1, h2]
    · simp [bannerText, h1, h2]
  · intro r h1
    constructor
    · simp [bannerKind, h1]
    · simp [bannerText, h1]
  · intro f n
    cases n <;> simp [scriptEpilogue]

theorem emptyVsErrorDistinctWitness :
    bannerKind ⟨"success", none, none, none, some []⟩ = BannerKind.clean ∧
    bannerKind ⟨"error", some "Joern failed", none, none, none⟩ =
      BannerKind.error ∧
    (ScriptLine.noVulnerabilitiesFound ∈ scriptEpilogue "results.json" 0 ↔
      0 = 0) :=
  ⟨(emptyVsErrorDistinct.1 ⟨"success", none, none, none, some []⟩ rfl rfl).1,
   (emptyVsErrorDistinct.2.1 ⟨"error", some "Joern failed", none, none, none⟩
      rfl).1,
   emptyVsErrorDistinct.2.2.2 "results.json" 0⟩

/-- Claim C9: adding an error message whose content equals the immediately
preceding error message appends nothing to the message list or the DOM —
the last error element's count badge is set to the repetition count
instead — while a message with a non-error type, or an error with different
content, is appended and resets the consolidation state. -/
theorem repeatedErrorConsolidated (st : PaneState) (role : MsgRole)
    (m : ChatMessage) (hlast : st.messages.getLast? = some m)
    (htype : m.msgType = MsgType.error)
    (hsync : st.lastErrorContent = m.content) :
    (addMessage st role m.content MsgType.error).messages = st.messages ∧
    (addMessage st role m.content MsgType.error).dom =
      setLastErrorBadge st.dom (st.errorCount + 1) ∧
    (addMessage st role m.content MsgType.error).dom.length =
      st.dom.length ∧
    (addMessage st role m.content MsgType.error).errorCount =
      st.errorCount + 1 ∧
    (∀ (c : String) (t : MsgType), t ≠ MsgType.error →
        addMessage st role c t = appendMessage st role c t ∧
        (appendMessage st role c t).lastErrorContent = "" ∧
        (appendMessage st role c t).errorCount = 0 ∧
        (appendMessage st role c t).messages = st.messages ++ [⟨role, c, t⟩]) ∧
    (∀ c : String, c ≠ st.lastErrorContent →
        addMessage st role c MsgType.error =
          appendMessage st role c MsgType.error ∧
        (appendMessage st role c MsgType.error).lastErrorContent = c ∧
        (appendMessage st role c MsgType.error).errorCount = 1) := by
  have hpos : 0 < st.messages.length := by
    cases hm : st.messages with
    | nil => rw [hm] at hlast; cases hlast
    | cons a l => simp [hm]
  have hmain : addMessage st role m.content MsgType.error =
      { st with errorCount := st.errorCount + 1,
                dom := setLastErrorBadge st.dom (st.errorCount + 1) } := by
    unfold addMessage
    rw [hlast]
    simp [hsync, htype, hpos]
  have hlen : ∀ (l : List DomElement) (n : Nat),
      (setLastErrorBadge l n).length = l.length := by
    intro l n
    induction l with
    | nil => rfl
    | cons e es ih =>
        simp only [setLastErrorBadge]
        split_ifs <;> simp [ih]
  refine ⟨by rw [hmain], by rw [hmain], ?_, by rw [hmain], ?_, ?_⟩
  · rw [hmain]
    exact hlen _ _
  · intro c t ht
    have hbeq : (t == MsgType.error) = false := by
      cases t <;> simp_all
    refine ⟨?_, ?_, ?_, ?_⟩
    · unfold addMessage
      simp [hbeq]
    · simp [appendMessage, hbeq]
    · simp [appendMessage, hbeq]
    · simp [appendMessage]
  · intro c hc
    have hbeq : (c == st.lastErrorContent) = false := by
      simp [hc]
    refine ⟨?_, ?_, ?_⟩
    · unfold addMessage
      simp [hbeq]
    · simp [appendMessage]
    · simp [appendMessage]

theorem repeatedErrorConsolidatedWitness :
    (addMessage paneSt MsgRole.system errMsgContent
      MsgType.error).messages = paneSt.messages ∧
    (addMessage paneSt MsgRole.system errMsgContent
      MsgType.error).errorCount = paneSt.errorCount + 1 := by
  have h := repeatedErrorConsolidated paneSt MsgRole.system
    ⟨MsgRole.system, errMsgContent, MsgType.error⟩ rfl rfl rfl
  exact ⟨h.1, h.2.2.2.1⟩

end Graphide
